import Mathlib

/-!
Verification of the `build.rs` build script of the `rust-ffmpeg-sys`
repository, shallowly embedded in Lean 4.

Rust strings (`&str`, `String`) are modelled as Lean `String`; filesystem
existence checks, process execution and package-config probes are passed in
as explicit oracles, so that every embedded function is pure and total.
`i64` values are modelled as `Int` (all the script does with them is compare
against the `i32` bounds, so no wrap-around arithmetic occurs).
-/

/-- Rust `str::starts_with` on string slices: the pattern's character
sequence is a prefix of the subject's character sequence. -/
def rsStartsWith (s pat : String) : Bool :=
  List.isPrefixOf pat.data s.data

/-- Embeds `fn join(root: &str, next: &str) -> anyhow::Result<String>`
(build.rs:11): `Path::new(root).join(next)` rendered back to a string.
For the relative `next` components this script passes, `Path::join`
concatenates with a separator; `to_str` never fails on inputs that were
`&str` already, so the embedding is total. -/
def join (root next : String) : String :=
  root ++ "/" ++ next

/-- bindgen's `IntKind` (the variants this script produces). -/
inductive IntKind where
  | Int
  | UInt
  | ULongLong
  | Custom (name : String) (is_signed : Bool)
  deriving DecidableEq, Repr

/-- bindgen's `EnumVariantCustomBehavior`. -/
inductive EnumVariantCustomBehavior where
  | Constify
  | ModuleConstify
  | Hide
  deriving DecidableEq, Repr

/-- bindgen's `EnumVariantValue`. -/
inductive EnumVariantValue where
  | Boolean (val : Bool)
  | Signed (val : Int)
  | Unsigned (val : Nat)
  deriving DecidableEq, Repr

/-- `i32::MIN as i64`. -/
def i32MIN : Int := -2147483648

/-- `i32::MAX as i64`. -/
def i32MAX : Int := 2147483647

/-- Embeds `Callbacks::int_macro` (build.rs:54-77): the macro-integer-typing
decision of the `ParseCallbacks` implementation. -/
def int_macro (_name : String) (value : Int) : Option IntKind :=
  let ch_layout_prefix := "AV_CH_"
  let codec_cap_prefix := "AV_CODEC_CAP_"
  let codec_flag_prefix := "AV_CODEC_FLAG_"
  let error_max_size := "AV_ERROR_MAX_STRING_SIZE"
  if rsStartsWith _name ch_layout_prefix then
    some IntKind.ULongLong
  else if decide (i32MIN ≤ value) && decide (value ≤ i32MAX)
      && (rsStartsWith _name codec_cap_prefix || rsStartsWith _name codec_flag_prefix) then
    some IntKind.UInt
  else if _name = error_max_size then
    some (IntKind.Custom "usize" false)
  else if decide (i32MIN ≤ value) && decide (value ≤ i32MAX) then
    some IntKind.Int
  else
    none

/-- Embeds `Callbacks::enum_variant_behavior` (build.rs:79-91): the
enum-variant suppression decision. -/
def enum_variant_behavior (_enum_name : Option String) (original_variant_name : String)
    (_variant_value : EnumVariantValue) : Option EnumVariantCustomBehavior :=
  let dummy_codec_id_pre := "AV_CODEC_ID_FIRST_"
  if rsStartsWith original_variant_name dummy_codec_id_pre then
    some EnumVariantCustomBehavior.Constify
  else
    none

/-- The captured outcome of a spawned external command
(`std::process::Output`): exit code plus captured streams. Rust's
`ExitStatus::success()` is `exitCode = 0`. The raw `stdout`/`stderr` byte
buffers are modelled as the strings `String::from_utf8_unchecked` yields
from them, which reinterprets the bytes without modifying them. -/
structure Output where
  exitCode : Int
  stdout : String
  stderr : String
  deriving DecidableEq, Repr

/-- Embeds `fn exec(command, work_dir)` (build.rs:23-48), given the outcome
of the spawned shell: non-zero exit becomes `Except.error` carrying the
captured stderr, zero exit becomes `Except.ok` carrying the captured
stdout. (An OS-level failure to spawn the shell at all is propagated
separately by `?` in the source and carries no exit status; the claim and
this embedding concern the command-executed case.) -/
def exec (output : Output) : Except String String :=
  if ¬ (output.exitCode = 0) then
    Except.error output.stderr
  else
    Except.ok output.stdout

/-- Embeds `fn search_include(include_prefix, header)` (build.rs:112-120),
with the filesystem's `fs::metadata(..).is_ok()` check passed in as the
oracle `fsExists`. -/
def search_include (fsExists : String → Bool) : List String → String → String
  | [], header => "/usr/include/" ++ header
  | dir :: rest, header =>
    let inc := join dir header
    if fsExists inc then inc else search_include fsExists rest header

/-- Embeds `static LIBRARYS: [(&str, &str); 8]` (build.rs:122-131). -/
def LIBRARYS : List (String × String) :=
  [("avcodec", "6.0"),
   ("avdevice", "6.0"),
   ("avfilter", "6.0"),
   ("avformat", "6.0"),
   ("avutil", "6.0"),
   ("postproc", "6.0"),
   ("swresample", "4.7"),
   ("swscale", "6.0")]

/-- The result of one successful `pkg_config` probe: the fields of
`pkg_config::Library` this script reads. -/
structure Library where
  link_paths : List String
  include_paths : List String
  deriving DecidableEq, Repr

/-- One probe call as the script makes it (build.rs:428-430): minimum
version from the table, package name `"lib" ++ name`. -/
def probe_call (probe : String → String → Except String Library)
    (p : String × String) : Except String Library :=
  probe p.2 ("lib" ++ p.1)

/-- The `for (name, version) in LIBRARYS` loop of the system-probe branch
(build.rs:424-439): `includes` and `librarys` are the two accumulator
vectors, a failed probe aborts via `?` with that probe's error. -/
def probeAll (probe : String → String → Except String Library) :
    List (String × String) → List String → List String →
    Except String (List String × List String)
  | [], includes, librarys => Except.ok (includes, librarys)
  | (name, version) :: rest, includes, librarys =>
    match probe version ("lib" ++ name) with
    | Except.error e => Except.error e
    | Except.ok lib =>
        probeAll probe rest (includes ++ lib.include_paths) (librarys ++ lib.link_paths)

/-- Embeds the system-probe (non-macos, non-windows) branch of
`find_ffmpeg_prefix` (build.rs:423-442): returns
`(include_paths, link_paths)`. -/
def find_ffmpeg_prefix_linux (probe : String → String → Except String Library) :
    Except String (List String × List String) :=
  probeAll probe LIBRARYS [] []

/-- The include paths of one probe outcome (empty on error; only reachable
on success in the source, where `?` has already aborted otherwise). -/
def ok_include_paths : Except String Library → List String
  | Except.ok lib => lib.include_paths
  | Except.error _ => []

/-- The link paths of one probe outcome. -/
def ok_link_paths : Except String Library → List String
  | Except.ok lib => lib.link_paths
  | Except.error _ => []

/-- The world a run of the build script observes: `fs::metadata(dir).is_ok()`
existence checks and the outcome of `exec` for each shell command run in a
working directory. -/
structure ExecEnv where
  dirExists : String → Bool
  run : String → String → Except String String

/-- `fn is_exsit(dir)` (build.rs:19-21) over the environment oracle. -/
def is_exsit (env : ExecEnv) (dir : String) : Bool :=
  env.dirExists dir

/-- The clone command of the Dependency Fetcher (build.rs:174). -/
def gitCloneCmd : String :=
  "git clone https://github.com/Intel-Media-SDK/MediaSDK media-sdk"

/-- Embeds the media-sdk fetch step of `main` (build.rs:171-177): if the
target directory exists nothing runs, otherwise the clone command runs and
its failure aborts via `?`. The first component records the shell commands
executed, in order; the second is the `media_sdk_prefix` path `main`
continues with. -/
def fetch_media_sdk (env : ExecEnv) (out_dir : String) :
    List String × Except String String :=
  let media_sdk_dir := join out_dir "media-sdk"
  if is_exsit env media_sdk_dir then
    ([], Except.ok media_sdk_dir)
  else
    match env.run gitCloneCmd out_dir with
    | Except.error e => ([gitCloneCmd], Except.error e)
    | Except.ok _ => ([gitCloneCmd], Except.ok media_sdk_dir)

/-- The archive-download command of the Windows branch (build.rs:406-409),
with the build-profile label substituted into the URL. -/
def download_cmd (is_debug : Bool) : String :=
  "Invoke-WebRequest -Uri https://github.com/mycrl/third-party/releases/download/distributions/ffmpeg-windows-x64-"
    ++ (if is_debug then "debug" else "release")
    ++ ".zip -OutFile ffmpeg.zip"

/-- The archive-extraction command of the Windows branch (build.rs:414). -/
def expandCmd : String :=
  "Expand-Archive -Path ffmpeg.zip -DestinationPath ./"

/-- Embeds the Windows (archive-download) branch of `find_ffmpeg_prefix`
(build.rs:402-422). The first component records the shell commands
executed, in order; the second is the `(include_paths, link_paths)` result
(the directory the source names `prefix` is `ffmpeg_dir` here). -/
def find_ffmpeg_prefix_windows (env : ExecEnv) (out_dir : String) (is_debug : Bool) :
    List String × Except String (List String × List String) :=
  let ffmpeg_dir := join out_dir "ffmpeg"
  if is_exsit env ffmpeg_dir then
    ([], Except.ok ([join ffmpeg_dir "./include"], [join ffmpeg_dir "./lib"]))
  else
    match env.run (download_cmd is_debug) out_dir with
    | Except.error e => ([download_cmd is_debug], Except.error e)
    | Except.ok _ =>
      match env.run expandCmd out_dir with
      | Except.error e => ([download_cmd is_debug, expandCmd], Except.error e)
      | Except.ok _ =>
          ([download_cmd is_debug, expandCmd],
           Except.ok ([join ffmpeg_dir "./include"], [join ffmpeg_dir "./lib"]))

/-- Embeds the macos branch of `find_ffmpeg_prefix` (build.rs:395-401). -/
def find_ffmpeg_prefix_macos (env : ExecEnv) (out_dir : String) :
    Except String (List String × List String) :=
  match env.run "brew --prefix ffmpeg@6" out_dir with
  | Except.error e => Except.error e
  | Except.ok s =>
      let p := s.replace "\n" ""
      Except.ok ([join p "./include"], [join p "./lib"])

/-- `media_sdk_include_prefix` as `main` computes it (build.rs:179). -/
def media_sdk_include_dir (out_dir : String) : String :=
  join (join out_dir "media-sdk") "./api/include"

/-- The include-path sequence after `main` appends the media-sdk include
directory to the Platform Resolver's output (build.rs:180):
`include_prefix.append(&mut vec![media_sdk_include_prefix.clone()])`. -/
def main_include_dirs (resolver_includes : List String) (out_dir : String) : List String :=
  resolver_includes ++ [media_sdk_include_dir out_dir]

/-- The `-I` arguments handed to the translation pass (build.rs:182-184). -/
def clang_includes (dirs : List String) : List String :=
  dirs.map (fun inc => "-I" ++ inc)

/-- `is_debug` as `main` computes it (build.rs:135-137):
`env::var("DEBUG").map(|label| label == "true").unwrap_or(true)`. `none`
models both an unset and an unreadable `DEBUG` variable (both are `Err`
from `env::var`). -/
def is_debug (debug_var : Option String) : Bool :=
  (debug_var.map (fun label => label == "true")).getD true

/-- A concrete probe oracle failing exactly on the post-processing library,
with every other package found. -/
def probeFailW : String → String → Except String Library := fun _ pkg =>
  if pkg = "libpostproc" then Except.error "libpostproc not found"
  else Except.ok ⟨["/usr/lib/x"], ["/usr/include/x"]⟩

/-- A concrete probe oracle finding every package. -/
def probeOkW : String → String → Except String Library := fun _ _ =>
  Except.ok ⟨["/usr/lib/x"], ["/usr/include/x"]⟩

/-- A concrete environment where every directory exists and every command
succeeds. -/
def envAllW : ExecEnv :=
  ⟨fun _ => true, fun _ _ => Except.ok ""⟩

/-- A concrete environment where no directory exists and every command
succeeds. -/
def envNoneW : ExecEnv :=
  ⟨fun _ => false, fun _ _ => Except.ok ""⟩

/-- Two prefixes of one list are comparable: one is a prefix of the other. -/
theorem isPrefixOf_comparable : ∀ (s p q : List Char),
    List.isPrefixOf p s = true → List.isPrefixOf q s = true →
    (List.isPrefixOf p q || List.isPrefixOf q p) = true := by
  intro s
  induction s with
  | nil =>
    intro p q hp hq
    cases p <;> cases q <;> simp_all [List.isPrefixOf]
  | cons c cs ih =>
    intro p q hp hq
    cases p with
    | nil => simp [List.isPrefixOf]
    | cons a as =>
      cases q with
      | nil => simp [List.isPrefixOf]
      | cons b bs =>
        simp only [List.isPrefixOf, Bool.and_eq_true, beq_iff_eq] at hp hq ⊢
        obtain ⟨rfl, hp⟩ := hp
        obtain ⟨rfl, hq⟩ := hq
        simpa using ih as bs hp hq

/-- A name under one of the codec prefixes is not under the channel-layout
one: the two prefixes already disagree at their fifth character. -/
theorem not_ch_of_codec (name : String)
    (h : rsStartsWith name "AV_CODEC_CAP_" = true ∨ rsStartsWith name "AV_CODEC_FLAG_" = true) :
    rsStartsWith name "AV_CH_" = false := by
  by_contra hc
  rw [Bool.not_eq_false] at hc
  rcases h with h | h
  · have := isPrefixOf_comparable name.data "AV_CH_".data "AV_CODEC_CAP_".data hc h
    revert this
    decide
  · have := isPrefixOf_comparable name.data "AV_CH_".data "AV_CODEC_FLAG_".data hc h
    revert this
    decide

/-- C1: every macro name starting with the channel-layout prefix "AV_CH_"
receives the unsigned-64-bit typing decision, for every value — the name
rule is the first branch and wins over the generic 32-bit range rule. -/
theorem int_macro_ch_layout_unsigned64 (name : String) (value : Int)
    (h : rsStartsWith name "AV_CH_" = true) :
    int_macro name value = some IntKind.ULongLong := by
  simp [ int_macro, h]

theorem int_macro_ch_layout_unsigned64_witness :
    rsStartsWith "AV_CH_LAYOUT_STEREO" "AV_CH_" = true
    ∧ int_macro "AV_CH_LAYOUT_STEREO" 3 = some IntKind.ULongLong :=
  ⟨by decide, int_macro_ch_layout_unsigned64 "AV_CH_LAYOUT_STEREO" 3 (by decide)⟩

/-- C2: every macro name under the codec-capability or codec-flag prefix
whose value lies in the signed 32-bit range receives the unsigned-32-bit
typing decision, and never the signed-32-bit one. -/
theorem int_macro_codec_flags_unsigned32 (name : String) (value : Int)
    (hpre : rsStartsWith name "AV_CODEC_CAP_" = true ∨ rsStartsWith name "AV_CODEC_FLAG_" = true)
    (hlo : i32MIN ≤ value) (hhi : value ≤ i32MAX) :
    int_macro name value = some IntKind.UInt
    ∧ int_macro name value ≠ some IntKind.Int := by
  have hch := not_ch_of_codec name hpre
  have hor : (rsStartsWith name "AV_CODEC_CAP_" || rsStartsWith name "AV_CODEC_FLAG_") = true := by
    rcases hpre with h | h <;> simp [h]
  constructor
  · simp [ int_macro, hch, hlo, hhi, hor]
  · simp [ int_macro, hch, hlo, hhi, hor]

theorem int_macro_codec_flags_unsigned32_witness :
    rsStartsWith "AV_CODEC_CAP_TRUNCATED" "AV_CODEC_CAP_" = true
    ∧ i32MIN ≤ (8 : Int) ∧ (8 : Int) ≤ i32MAX
    ∧ int_macro "AV_CODEC_CAP_TRUNCATED" 8 = some IntKind.UInt
    ∧ int_macro "AV_CODEC_CAP_TRUNCATED" 8 ≠ some IntKind.Int :=
  ⟨by decide, by decide, by decide,
   (int_macro_codec_flags_unsigned32 "AV_CODEC_CAP_TRUNCATED" 8
      (Or.inl (by decide)) (by decide) (by decide)).1,
   (int_macro_codec_flags_unsigned32 "AV_CODEC_CAP_TRUNCATED" 8
      (Or.inl (by decide)) (by decide) (by decide)).2⟩

/-- C8: the macro named exactly "AV_ERROR_MAX_STRING_SIZE" receives the
platform-size unsigned typing decision (`usize`), whatever its value: the
two earlier name branches never match it, and the special case is checked
before the generic 32-bit range rule. -/
theorem int_macro_error_max_usize (value : Int) :
    int_macro "AV_ERROR_MAX_STRING_SIZE" value = some (IntKind.Custom "usize" false) := by
  simp [ int_macro, rsStartsWith, List.isPrefixOf]

/-- C9: an enum member is constified into a named constant exactly when its
name starts with the dummy prefix "AV_CODEC_ID_FIRST_"; every other member
name is kept as a normal variant (`none`), whatever the enum name and the
variant value. -/
theorem enum_variant_constify_iff (en : Option String) (name : String) (v : EnumVariantValue) :
    (enum_variant_behavior en name v = some EnumVariantCustomBehavior.Constify
      ↔ rsStartsWith name "AV_CODEC_ID_FIRST_" = true)
    ∧ (enum_variant_behavior en name v = none
      ↔ rsStartsWith name "AV_CODEC_ID_FIRST_" = false) := by
  unfold enum_variant_behavior
  rcases h : rsStartsWith name "AV_CODEC_ID_FIRST_" <;> simp [h]

/-- C3: the Header Locator is total and returns the join of the first
candidate directory whose joined path passes the existence check; when no
candidate passes, it returns the hard-coded fallback
"/usr/include/<header>" with no existence check on it. -/
theorem search_include_total_first_match (fsExists : String → Bool)
    (include_dirs : List String) (header : String) :
    search_include fsExists include_dirs header =
      match include_dirs.find? (fun dir => fsExists (join dir header)) with
      | some dir => join dir header
      | none => "/usr/include/" ++ header := by
  induction include_dirs with
  | nil => simp [search_include]
  | cons d rest ih =>
    by_cases h : fsExists (join d header) <;> simp [search_include, List.find?, h, ih]

/-- C6: the Shell Executor fails exactly on non-zero exit status, the
failure carries the captured stderr unmodified, and zero exit returns the
captured stdout. -/
theorem exec_stderr_on_failure (o : Output) :
    ((∃ e, exec o = Except.error e) ↔ o.exitCode ≠ 0)
    ∧ (o.exitCode ≠ 0 → exec o = Except.error o.stderr)
    ∧ (o.exitCode = 0 → exec o = Except.ok o.stdout) := by
  unfold exec
  by_cases h : o.exitCode = 0 <;> simp [h]

theorem exec_stderr_on_failure_witness :
    exec ⟨1, "out", "err"⟩ = Except.error "err"
    ∧ exec ⟨0, "out", "err"⟩ = Except.ok "out" :=
  ⟨(exec_stderr_on_failure ⟨1, "out", "err"⟩).2.1 (by decide),
   (exec_stderr_on_failure ⟨0, "out", "err"⟩).2.2 rfl⟩

/-- When every probe in `entries` succeeds, the accumulator loop returns
`ok` with every include and link path appended in order. -/
theorem probeAll_ok (probe : String → String → Except String Library) :
    ∀ (entries : List (String × String)) (inc lnk : List String),
    (∀ p ∈ entries, (probe_call probe p).isOk = true) →
    probeAll probe entries inc lnk =
      Except.ok (inc ++ (entries.map fun p => ok_include_paths (probe_call probe p)).flatten,
                 lnk ++ (entries.map fun p => ok_link_paths (probe_call probe p)).flatten) := by
  intro entries
  induction entries with
  | nil =>
    intro inc lnk _
    simp [probeAll]
  | cons hd tl ih =>
    intro inc lnk h
    obtain ⟨name, version⟩ := hd
    have hhd := h (name, version) (List.mem_cons_self _ _)
    cases hlib : probe version ("lib" ++ name) with
    | error e =>
      simp [probe_call, hlib, Except.isOk, Except.toBool] at hhd
    | ok lib =>
      have htl : ∀ p ∈ tl, (probe_call probe p).isOk = true :=
        fun p hp => h p (List.mem_cons_of_mem _ hp)
      simp only [probeAll, hlib]
      rw [ih _ _ htl]
      simp [probe_call, hlib, ok_include_paths, ok_link_paths, List.append_assoc]

/-- When the probes before one entry succeed and that entry's probe fails,
the accumulator loop returns exactly that probe's error. -/
theorem probeAll_error (probe : String → String → Except String Library) :
    ∀ (pre : List (String × String)) (name version : String)
      (suf : List (String × String)) (e : String) (inc lnk : List String),
    (∀ p ∈ pre, (probe_call probe p).isOk = true) →
    probe version ("lib" ++ name) = Except.error e →
    probeAll probe (pre ++ (name, version) :: suf) inc lnk = Except.error e := by
  intro pre
  induction pre with
  | nil =>
    intro name version suf e inc lnk _ hfail
    simp [probeAll, hfail]
  | cons hd tl ih =>
    intro name version suf e inc lnk h hfail
    obtain ⟨n, v⟩ := hd
    have hhd := h (n, v) (List.mem_cons_self _ _)
    cases hlib : probe v ("lib" ++ n) with
    | error e' =>
      simp [probe_call, hlib, Except.isOk, Except.toBool] at hhd
    | ok lib =>
      simp only [List.cons_append, probeAll, hlib]
      exact ih name version suf e _ _ (fun p hp => h p (List.mem_cons_of_mem _ hp)) hfail

/-- C4: system-probe resolution is fail-fast and atomic over the 8 fixed
library requirements: a probe with the entry's minimum version is made for
each entry; if the probes before some entry succeed and that entry's probe
fails, the whole resolution is exactly that probe's error (so no partial
path set is returned); if all succeed, the result accumulates every include
and link path of all probes in order. -/
theorem find_ffmpeg_linux_fail_fast_atomic (probe : String → String → Except String Library) :
    LIBRARYS.length = 8
    ∧ ((∀ p ∈ LIBRARYS, (probe_call probe p).isOk = true) →
        find_ffmpeg_prefix_linux probe =
          Except.ok ((LIBRARYS.map fun p => ok_include_paths (probe_call probe p)).flatten,
                     (LIBRARYS.map fun p => ok_link_paths (probe_call probe p)).flatten))
    ∧ (∀ pre name version suf e,
        LIBRARYS = pre ++ (name, version) :: suf →
        (∀ p ∈ pre, (probe_call probe p).isOk = true) →
        probe version ("lib" ++ name) = Except.error e →
        find_ffmpeg_prefix_linux probe = Except.error e) := by
  refine ⟨rfl, ?_, ?_⟩
  · intro h
    have hall := probeAll_ok probe LIBRARYS [] [] h
    simpa [find_ffmpeg_prefix_linux] using hall
  · intro pre name version suf e hsplit hpre hfail
    have herr := probeAll_error probe pre name version suf e [] [] hpre hfail
    rw [find_ffmpeg_prefix_linux, hsplit]
    exact herr

theorem find_ffmpeg_linux_fail_fast_atomic_witness :
    find_ffmpeg_prefix_linux probeFailW = Except.error "libpostproc not found"
    ∧ find_ffmpeg_prefix_linux probeOkW =
        Except.ok
          (["/usr/include/x", "/usr/include/x", "/usr/include/x", "/usr/include/x",
            "/usr/include/x", "/usr/include/x", "/usr/include/x", "/usr/include/x"],
           ["/usr/lib/x", "/usr/lib/x", "/usr/lib/x", "/usr/lib/x",
            "/usr/lib/x", "/usr/lib/x", "/usr/lib/x", "/usr/lib/x"]) := by
  constructor
  · exact (find_ffmpeg_linux_fail_fast_atomic probeFailW).2.2
      [("avcodec", "6.0"), ("avdevice", "6.0"), ("avfilter", "6.0"),
       ("avformat", "6.0"), ("avutil", "6.0")]
      "postproc" "6.0"
      [("swresample", "4.7"), ("swscale", "6.0")]
      "libpostproc not found" rfl (by decide) rfl
  · exact (find_ffmpeg_linux_fail_fast_atomic probeOkW).2.1 (by decide)

/-- C5: both fetch-on-demand operations are idempotent: with the target
directory present, the media-sdk fetch runs no clone command and the
archive branch runs no download or extraction command (both command traces
are empty), and each returns the very result a first run that created the
directory returned. -/
theorem fetch_idempotent (env env₁ env₂ : ExecEnv) (out_dir : String) (b : Bool)
    (hm : env.dirExists (join out_dir "media-sdk") = true)
    (hf : env.dirExists (join out_dir "ffmpeg") = true) :
    (fetch_media_sdk env out_dir).1 = []
    ∧ (find_ffmpeg_prefix_windows env out_dir b).1 = []
    ∧ ((fetch_media_sdk env₁ out_dir).2.isOk = true →
        (fetch_media_sdk env out_dir).2 = (fetch_media_sdk env₁ out_dir).2)
    ∧ ((find_ffmpeg_prefix_windows env₂ out_dir b).2.isOk = true →
        (find_ffmpeg_prefix_windows env out_dir b).2
          = (find_ffmpeg_prefix_windows env₂ out_dir b).2) := by
  have h1 : fetch_media_sdk env out_dir = ([], Except.ok (join out_dir "media-sdk")) := by
    simp [fetch_media_sdk, is_exsit, hm]
  have h2 : find_ffmpeg_prefix_windows env out_dir b =
      ([], Except.ok ([join (join out_dir "ffmpeg") "./include"],
                      [join (join out_dir "ffmpeg") "./lib"])) := by
    simp [find_ffmpeg_prefix_windows, is_exsit, hf]
  refine ⟨by rw [h1], by rw [h2], ?_, ?_⟩
  · intro hok
    rw [h1]
    by_cases h : env₁.dirExists (join out_dir "media-sdk")
    · simp [fetch_media_sdk, is_exsit, h]
    · cases hrun : env₁.run gitCloneCmd out_dir with
      | error e =>
        rw [fetch_media_sdk] at hok
        simp [is_exsit, h, hrun, Except.isOk, Except.toBool] at hok
      | ok s =>
        simp [fetch_media_sdk, is_exsit, h, hrun]
  · intro hok
    rw [h2]
    by_cases h : env₂.dirExists (join out_dir "ffmpeg")
    · simp [find_ffmpeg_prefix_windows, is_exsit, h]
    · cases hdl : env₂.run (download_cmd b) out_dir with
      | error e =>
        rw [find_ffmpeg_prefix_windows] at hok
        simp [is_exsit, h, hdl, Except.isOk, Except.toBool] at hok
      | ok s =>
        cases hex : env₂.run expandCmd out_dir with
        | error e =>
          rw [find_ffmpeg_prefix_windows] at hok
          simp [is_exsit, h, hdl, hex, Except.isOk, Except.toBool] at hok
        | ok t =>
          simp [find_ffmpeg_prefix_windows, is_exsit, h, hdl, hex]

theorem fetch_idempotent_witness :
    (fetch_media_sdk envAllW "/out").1 = []
    ∧ (find_ffmpeg_prefix_windows envAllW "/out" true).1 = []
    ∧ (fetch_media_sdk envAllW "/out").2 = (fetch_media_sdk envNoneW "/out").2
    ∧ (find_ffmpeg_prefix_windows envAllW "/out" true).2
        = (find_ffmpeg_prefix_windows envNoneW "/out" true).2 :=
  ⟨(fetch_idempotent envAllW envNoneW envNoneW "/out" true rfl rfl).1,
   (fetch_idempotent envAllW envNoneW envNoneW "/out" true rfl rfl).2.1,
   (fetch_idempotent envAllW envNoneW envNoneW "/out" true rfl rfl).2.2.1 rfl,
   (fetch_idempotent envAllW envNoneW envNoneW "/out" true rfl rfl).2.2.2 rfl⟩

/-- Appending one element puts it last. -/
theorem getLast?_append_singleton (l : List String) (a : String) :
    (l ++ [a]).getLast? = some a := by
  rw [List.getLast?_concat]

/-- Appending one element leaves everything else, in order, before it. -/
theorem dropLast_append_singleton (l : List String) (a : String) :
    (l ++ [a]).dropLast = l := by
  rw [List.dropLast_concat]

/-- C7: in the include-path sequence `main` builds for the translation
pass, the media-sdk source tree's `api/include` directory is always the
last element, after every include path the Platform Resolver produced —
both in the directory list and in the `-I` argument list derived from it. -/
theorem media_sdk_include_last (resolver_includes : List String) (out_dir : String) :
    (main_include_dirs resolver_includes out_dir).getLast?
        = some (media_sdk_include_dir out_dir)
    ∧ (main_include_dirs resolver_includes out_dir).dropLast = resolver_includes
    ∧ (clang_includes (main_include_dirs resolver_includes out_dir)).getLast?
        = some ("-I" ++ media_sdk_include_dir out_dir) := by
  refine ⟨?_, ?_, ?_⟩
  · rw [main_include_dirs, getLast?_append_singleton]
  · rw [main_include_dirs, dropLast_append_singleton]
  · rw [main_include_dirs, clang_includes, List.map_append, List.map_singleton,
        getLast?_append_singleton]

/-- C10: the build is a debug build by default: `is_debug` is `true`
exactly when the DEBUG variable is absent/unreadable (`none`) or equals
"true"; in particular it is `true` for `none`, and then the archive branch,
when the target directory is absent, downloads the debug-profile archive
first. -/
theorem is_debug_default_true :
    (∀ v, is_debug v = true ↔ (v = none ∨ v = some "true"))
    ∧ is_debug none = true
    ∧ (∀ env out_dir, env.dirExists (join out_dir "ffmpeg") = false →
        (find_ffmpeg_prefix_windows env out_dir (is_debug none)).1.head?
          = some (download_cmd true)) := by
  refine ⟨?_, rfl, ?_⟩
  · intro v
    cases v with
    | none => simp [is_debug]
    | some s => simp [is_debug]
  · intro env out_dir h
    cases hdl : env.run (download_cmd true) out_dir with
    | error e =>
      simp [find_ffmpeg_prefix_windows, is_exsit, h, is_debug, hdl]
    | ok s =>
      cases hex : env.run expandCmd out_dir with
      | error e =>
        simp [find_ffmpeg_prefix_windows, is_exsit, h, is_debug, hdl, hex]
      | ok t =>
        simp [find_ffmpeg_prefix_windows, is_exsit, h, is_debug, hdl, hex]

theorem is_debug_default_true_witness :
    (find_ffmpeg_prefix_windows envNoneW "/out" (is_debug none)).1.head?
      = some (download_cmd true) :=
  (is_debug_default_true).2.2 envNoneW "/out" rfl
